import Mathlib

/-!
Verification of the Identity & Token Lifecycle Engine of the `xyq` repository
(`user` service): a shallow embedding of the credential/registration manager
(`biz/user.go`, shipped here as `src/unnamed/part_004`), the token lifecycle
manager (`src/user/internal/biz/auth.go`) and the Redis-backed data layer
(`src/user/internal/data/auth.go`, `code.go`, `src/unnamed/part_011`),
together with theorems settling the frozen claims about them.

Conventions of the embedding:
* time is modelled as `Nat` (Unix seconds; `jwt.NewNumericDate` truncates to
  seconds, the default `jwt.TimePrecision`);
* Go `error` values crossing the store boundary are message strings;
* the external key-value store (Redis) is an association list; `SETNX`,
  `GET`, `DEL` follow the Redis command contracts;
* both stores are assumed to be reachable (no network faults), except where a
  claim is explicitly about arbitrary store failures, in which case the
  failure is an explicit parameter.
-/

namespace Xyq

/-- Equality of `Except` results is decidable whenever both component types
have decidable equality; used to evaluate the embedded operations on
concrete inputs inside proofs. -/
instance {ε α : Type} [DecidableEq ε] [DecidableEq α] : DecidableEq (Except ε α)
  | .ok a, .ok b =>
    if h : a = b then .isTrue (by rw [h]) else .isFalse (fun hc => by cases hc; exact h rfl)
  | .ok _, .error _ => .isFalse (fun h => by cases h)
  | .error _, .ok _ => .isFalse (fun h => by cases h)
  | .error a, .error b =>
    if h : a = b then .isTrue (by rw [h]) else .isFalse (fun hc => by cases hc; exact h rfl)

/-- The error taxonomy actually produced by the two managers: the
`error_reason.ErrorUser*` / `ErrorAuth*` constructors (kratos errors carrying
a message) from `biz/auth.go` and `service`, the sentinel errors declared at
the top of `biz/user.go` (`ErrEmailAlreadyExists`, `ErrInvalidVerificationCode`,
`ErrVerificationCodeExpired`, `ErrTooManyRequests`, `ErrInvalidCredentials`),
plain `errors.New` validation errors, and raw store errors that the manager
passes through unclassified (`return nil, err`). -/
inductive Err where
  | userInvalidToken (msg : String)
  | userTokenExpired (msg : String)
  | userRefreshTokenInvalid (msg : String)
  | userDatabaseError (msg : String)
  | authDatabaseError (msg : String)
  | userInternalError (msg : String)
  | emailAlreadyExists
  | invalidVerificationCode
  | verificationCodeExpired
  | tooManyRequests
  | invalidCredentials
  | validationError (msg : String)
  | storeError (msg : String)
  deriving DecidableEq, Repr

/-- Process environment as read by `os.Getenv`: an unset variable reads as
the empty string, which is exactly what the Go code tests for
(`if secret == ""`). -/
structure Env where
  jwtAccessSecret : String
  jwtRefreshSecret : String
  deriving DecidableEq, Repr

/-- The subset of `jwt.RegisteredClaims` that `ValidateToken` inspects and
that the `golang-jwt/v5` default validator checks: `Subject`, `ExpiresAt`
and `NotBefore` (seconds). `IssuedAt` is carried by generated tokens but is
neither validated by the v5 default validator nor read by `ValidateToken`,
so it is omitted. -/
structure RegisteredClaims where
  subject : String
  expiresAt : Option Nat
  notBefore : Option Nat
  deriving DecidableEq, Repr

/-- An access-token wire string, abstracted: a string either fails JWT
decoding (`malformed`, which also covers the empty string, kept as the raw
payload), or decodes to a claim set whose HS256 signature verifies under
exactly one secret (`signed claims secret`). This models HMAC signing as a
deterministic, collision-free function of (claims, secret). -/
inductive TokenString where
  | malformed (raw : String)
  | signed (claims : RegisteredClaims) (secret : String)
  deriving DecidableEq, Repr

/-- The error classes `golang-jwt/v5` `ParseWithClaims` can report. The Go
caller in `ValidateToken` only tests `err != nil`, so the distinctions are
collapsed there. -/
inductive JwtParseError where
  | malformed
  | signatureInvalid
  | tokenExpired
  | tokenNotValidYet
  deriving DecidableEq, Repr

/-- Embedding of `jwt.ParseWithClaims(tok, claims, keyFunc)` of
`golang-jwt/jwt/v5`, key fixed to `key`, evaluated at time `now`.
Crucially, the v5 default validator runs during parsing: with zero leeway it
requires `now < exp` when `exp` is present (else `ErrTokenExpired` is joined
into the returned error) and `¬ now < nbf` when `nbf` is present. A token
that parses successfully therefore already has an unexpired `exp`. -/
def jwtParseWithClaims (tok : TokenString) (key : String) (now : Nat) :
    Except JwtParseError RegisteredClaims :=
  match tok with
  | .malformed _ => .error .malformed
  | .signed claims secret =>
    if secret ≠ key then .error .signatureInvalid
    else if claims.expiresAt.any (fun exp => decide (exp ≤ now)) then .error .tokenExpired
    else if claims.notBefore.any (fun nbf => decide (now < nbf)) then .error .tokenNotValidYet
    else .ok claims

/-- Embedding of `strconv.ParseInt(s, 10, 64)`: an optional single `+`/`-` sign, a
non-empty run of decimal digits, nothing else, and the value must fit in a
signed 64-bit integer; `none` models a non-nil error. -/
def parseInt64 (s : String) : Option Int :=
  match s.data with
  | [] => none
  | c :: rest =>
    let ds := if c = '-' ∨ c = '+' then rest else c :: rest
    if ds = [] then none
    else if ds.all Char.isDigit then
      let v : Nat := ds.foldl (fun a d => 10 * a + (d.toNat - '0'.toNat)) 0
      let i : Int := if c = '-' then -(v : Int) else (v : Int)
      if -(2 ^ 63) ≤ i ∧ i ≤ 2 ^ 63 - 1 then some i else none
    else none

/-- The empty access-token string, which `ValidateToken` rejects first. -/
def emptyToken : TokenString := .malformed ""

/-- Embedding of `AuthUsecase.ValidateToken` (`src/user/internal/biz/auth.go:228-286`):
empty-string check, `JWT_ACCESS_SECRET` presence check, `jwt.ParseWithClaims`
(any parse error → `ErrorUserInvalidToken "访问令牌格式无效"`), then — mirroring
the source even though a successful v5 parse guarantees `now < exp` — the
`claims.ExpiresAt.Before(time.Now())` re-check returning
`ErrorUserTokenExpired`, and finally `strconv.ParseInt` on the subject.
The Go `!token.Valid` branch and the failed type assertion on the claims are
unreachable after a successful `ParseWithClaims` with these arguments and are
not represented. -/
def ValidateToken (env : Env) (accessToken : TokenString) (now : Nat) : Except Err Int :=
  if accessToken = emptyToken then .error (.userInvalidToken "访问令牌不能为空")
  else if env.jwtAccessSecret = "" then .error (.authDatabaseError "JWT访问令牌密钥未配置")
  else
    match jwtParseWithClaims accessToken env.jwtAccessSecret now with
    | .error _ => .error (.userInvalidToken "访问令牌格式无效")
    | .ok claims =>
      if claims.expiresAt.any (fun exp => decide (exp < now)) then
        .error (.userTokenExpired "访问令牌已过期")
      else
        match parseInt64 claims.subject with
        | none => .error (.userInvalidToken "访问令牌用户信息无效")
        | some uid => .ok uid

/-! ## Credential & Registration Manager (`src/unnamed/part_004`) -/

/-- One entry of the `user` table (`biz.User`): the store assigns ids; the
fields not touched by any claim (timestamps, avatar) are omitted. -/
structure UserRec where
  id : Int
  email : String
  passwordHash : String
  nickname : String
  isPremium : Nat
  deriving DecidableEq, Repr

/-- The store operations the registration manager can issue, recorded as a
trace so that ordering/frame claims ("no existence check", "rejected before
reaching the stores") can be stated. Each constructor corresponds to one
repository call in the Go source. -/
inductive StoreOp where
  | getVerificationCode (email : String)
  | deleteVerificationCode (email : String)
  | createUser (email : String)
  | getUserByEmail (email : String)
  | checkAndSetSendRateLimit (email : String)
  | storeVerificationCode (email : String)
  deriving DecidableEq, Repr

/-- Combined external state seen by the registration manager: the relational
`user` table, the verification-code keys (email ↦ code, absolute expiry) and
the rate-limit markers (email ↦ absolute marker expiry) of the key-value
store, plus the next id the relational store will assign.

Verification-code entries are kept until overwritten or deleted; the
production Redis backend may additionally evict an entry whose TTL elapsed,
which is covered by the entry being absent. -/
structure DB where
  users : List UserRec
  codes : List (String × String × Nat)
  rateLimitUntil : List (String × Nat)
  nextID : Int
  deriving DecidableEq, Repr

/-- Substring search on character lists: does `pat` occur contiguously? -/
def strContainsAux (pat : List Char) : List Char → Bool
  | [] => pat.isPrefixOf []
  | c :: rest => pat.isPrefixOf (c :: rest) || strContainsAux pat rest

/-- Embedding of Go `strings.Contains s pat`. -/
def strContains (s pat : String) : Bool :=
  strContainsAux pat.data s.data

/-- Go `strings.ToLower`, modelled per-character (the substrings being
searched for are plain ASCII). -/
def strToLower (s : String) : String :=
  ⟨s.data.map Char.toLower⟩

/-- Embedding of `biz.isUniqueConstraintError` (`part_004:37-47`): `nil` is
not a uniqueness error; otherwise lower-case the message and look for the
substrings `"duplicate"`, `"unique"` or `"constraint failed"`. -/
def isUniqueConstraintError (err : Option String) : Bool :=
  match err with
  | none => false
  | some e =>
    let lower := strToLower e
    strContains lower "duplicate" || strContains lower "unique" ||
      strContains lower "constraint failed"

/-- The message shape a genuine store uniqueness violation produces — the two
shapes the repository's own comment names: MySQL `Duplicate entry` and SQLite
`UNIQUE constraint failed`. Used to state, independently of the code's
substring test, whether a create failure *is* a uniqueness violation. -/
def isGormUniqueViolationMsg (e : String) : Bool :=
  strContains e "Duplicate entry" || strContains e "UNIQUE constraint failed"

/-- The MySQL-style error message the idealized relational store returns on a
uniqueness violation of the email column (the offending value, which MySQL
quotes inside the message, is irrelevant to classification and omitted). -/
def dupEntryMsg : String :=
  "Error 1062 (23000): Duplicate entry for key user.email"

/-- Embedding of `codeRepository.GetVerificationCode` at the repository contract level:
return the stored entry for the email, or `none` (the Go impl returns the
error "验证码不存在或已过期" for an absent key, which `Register` only tests for
non-nil-ness). -/
def lookupCode (db : DB) (email : String) : Option (String × Nat) :=
  (db.codes.find? (fun e => e.1 = email)).map (·.2)

/-- Embedding of `codeRepository.DeleteVerificationCode`: Redis `DEL`, which succeeds
whether or not the key exists. -/
def deleteCode (db : DB) (email : String) : DB :=
  { db with codes := db.codes.filter (fun e => ¬ e.1 = email) }

/-- Embedding of `codeRepository.StoreVerificationCode`: Redis `SET` with TTL
(overwrites any previous code for the email — "at most one live code"). -/
def storeCode (db : DB) (email code : String) (expiresAt : Nat) : DB :=
  { db with codes := (email, code, expiresAt) :: db.codes.filter (fun e => ¬ e.1 = email) }

/-- Embedding of `userRepository.GetByEmail` as a presence test (`err == nil` ⟺ a row with
that email exists; the only other outcome reachable in the model is
`gorm.ErrRecordNotFound`). -/
def userExists (db : DB) (email : String) : Bool :=
  db.users.any (fun u => u.email = email)

/-- Embedding of `userRepository.Create` against the idealized relational store, with an
optional injected fault: `fault = some msg` makes the call fail with that
raw store error (stores may fail for reasons other than uniqueness);
`fault = none` means the store behaves per contract — the insert succeeds
unless the email uniqueness constraint rejects it, in which case the error
message is the MySQL duplicate-entry shape. -/
def createUser (db : DB) (u : UserRec) (fault : Option String) :
    Except String (UserRec × DB) :=
  match fault with
  | some e => .error e
  | none =>
    if userExists db u.email then .error dupEntryMsg
    else
      let u2 := { u with id := db.nextID }
      .ok (u2, { db with users := u2 :: db.users, nextID := db.nextID + 1 })

/-- Embedding of `bcrypt.GenerateFromPassword`, abstracted to a deterministic opaque
encoding. No claim under verification depends on salting or on hash
inversion, only on the hash being stored and later cleared. -/
def hashPassword (password : String) : String :=
  "bcrypt$" ++ password

/-- Embedding of `UserUsecase.Register` continuation after the verification-code checks
passed (`part_004:219-267`): password-strength check, best-effort code
deletion, hashing, and the constraint-first create with its error
translation. Returns (result, final state, store-operation trace). -/
def registerPostCode (db : DB) (now : Nat) (email password code nickname : String)
    (fault : Option String) : Except Err UserRec × DB × List StoreOp :=
  if password.utf8ByteSize < 6 then
    (.error (.validationError "password must be at least 6 characters long"), db,
      [.getVerificationCode email])
  else
    let db1 := deleteCode db email
    let hashed := hashPassword password
    let u : UserRec :=
      { id := 0, email := email, passwordHash := hashed, nickname := nickname, isPremium := 0 }
    let trace := [StoreOp.getVerificationCode email, .deleteVerificationCode email,
      .createUser email]
    match createUser db1 u fault with
    | .error e =>
      if isUniqueConstraintError (some e) then (.error .emailAlreadyExists, db1, trace)
      else (.error (.storeError e), db1, trace)
    | .ok (u2, db2) => (.ok { u2 with passwordHash := "" }, db2, trace)

/-- Embedding of `UserUsecase.Register` (`part_004:184-268`): emptiness validation of
email/password/code (the source does not test `nickname`), fetch of the
stored verification code (absence → `ErrInvalidVerificationCode`), exact
string comparison, expiry check (`time.Now().After(ExpiresAt)`), then
`registerPostCode`. `now` is the call time; `fault` is the injected create
fault (see `createUser`). -/
def Register (db : DB) (now : Nat) (email password code nickname : String)
    (fault : Option String) : Except Err UserRec × DB × List StoreOp :=
  if email = "" ∨ password = "" ∨ code = "" then
    (.error (.validationError "email, password and code are required"), db, [])
  else
    match lookupCode db email with
    | none => (.error .invalidVerificationCode, db, [.getVerificationCode email])
    | some (storedCode, expiresAt) =>
      if storedCode ≠ code then
        (.error .invalidVerificationCode, db, [.getVerificationCode email])
      else if expiresAt < now then
        (.error .verificationCodeExpired, db, [.getVerificationCode email])
      else
        registerPostCode db now email password code nickname fault

/-- Embedding of `codeRepository.CheckAndSetSendRateLimit` (`part_011:121-146`): Redis
`SETNX` with TTL — returns `false` without writing when an unexpired marker
for the email exists, else writes a marker expiring `durationSec` from now
and returns `true`. -/
def checkAndSetSendRateLimit (db : DB) (email : String) (now durationSec : Nat) :
    Bool × DB :=
  if db.rateLimitUntil.any (fun e => e.1 = email ∧ now < e.2) then (false, db)
  else
    (true, { db with rateLimitUntil :=
      (email, now + durationSec) :: db.rateLimitUntil.filter (fun e => ¬ e.1 = email) })

/-- Embedding of `UserUsecase.SendRegisterCode` (`part_004:121-181`): emptiness check,
existence check via `GetByEmail` (a registered email → `ErrEmailAlreadyExists`
before anything else), the 60-second rate-limit claim (loser →
`ErrTooManyRequests`), storing the generated code with a 10-minute expiry,
and the mail hand-off. `gencode` is the (random in Go) generated 6-digit
code; `mailOK` is the mail collaborator's verdict; per the source a mail
failure does not roll back the stored code. -/
def SendRegisterCode (db : DB) (email : String) (now : Nat) (gencode : String)
    (mailOK : Bool) : Except Err Unit × DB × List StoreOp :=
  if email = "" then (.error (.validationError "email is required"), db, [])
  else if userExists db email then
    (.error .emailAlreadyExists, db, [.getUserByEmail email])
  else
    match checkAndSetSendRateLimit db email now 60 with
    | (false, db1) =>
      (.error .tooManyRequests, db1,
        [.getUserByEmail email, .checkAndSetSendRateLimit email])
    | (true, db1) =>
      let db2 := storeCode db1 email gencode (now + 600)
      let trace := [StoreOp.getUserByEmail email, .checkAndSetSendRateLimit email,
        .storeVerificationCode email]
      if mailOK then (.ok (), db2, trace)
      else (.error (.storeError "failed to send verification email"), db2, trace)

/-! ## Token Lifecycle Manager (`src/user/internal/biz/auth.go`,
`src/user/internal/data/auth.go`) -/

/-- The refresh-token keyspace of Redis: key ↦ (stored user id, absolute
expiry set by the TTL). -/
abbrev RStore : Type := List (String × Int × Nat)

/-- Redis `GET` on the refresh keyspace (presence; TTL bookkeeping is kept
with the entry but no claim under verification depends on TTL eviction
here). -/
def redisGet (s : RStore) (k : String) : Option Int :=
  (List.find? (fun e => e.1 = k) s).map (fun e => e.2.1)

/-- Redis `DEL`: succeeds whether or not the key exists. -/
def redisDel (s : RStore) (k : String) : RStore :=
  List.filter (fun e => ¬ e.1 = k) s

/-- Redis `SET` with TTL: overwrite. -/
def redisSet (s : RStore) (k : String) (v : Int) (expiresAt : Nat) : RStore :=
  (k, v, expiresAt) :: List.filter (fun e => ¬ e.1 = k) s

/-- The data layer prefixes every refresh token with `"refresh_token:"` to
form the Redis key. -/
def rkey (token : String) : String := "refresh_token:" ++ token

/-- Embedding of `authRepository.GetUserIDByRefreshToken` (`data/auth.go:41-52`). -/
def GetUserIDByRefreshToken (s : RStore) (token : String) : Except String Int :=
  match redisGet s (rkey token) with
  | none => .error "refresh token not found"
  | some v => .ok v

/-- Embedding of `authRepository.DeleteRefreshToken` (`data/auth.go:55-63`): Redis `DEL`,
no error for an absent key. -/
def DeleteRefreshToken (s : RStore) (token : String) : RStore :=
  redisDel s (rkey token)

/-- Embedding of `authRepository.StoreRefreshToken` (`data/auth.go:29-38`). -/
def StoreRefreshToken (s : RStore) (userID : Int) (token : String) (expiresAt : Nat) :
    RStore :=
  redisSet s (rkey token) userID expiresAt

/-- Embedding of `authRepository.RefreshTokenAtomically` (`data/auth.go:94-113`): the
overall effect of the two pipelined commands, `DEL old` then `SET new`. -/
def RefreshTokenAtomically (s : RStore) (userID : Int) (oldToken newToken : String)
    (expiresAt : Nat) : RStore :=
  redisSet (redisDel s (rkey oldToken)) (rkey newToken) userID expiresAt

/-- The successive store states while `RefreshTokenAtomically` executes.
`data/auth.go:96` builds the batch with `Pipeline()` — plain go-redis
pipelining, *not* `TxPipeline()`: the two commands are sent together but
Redis executes them as two independent commands with no `MULTI`/`EXEC`
around them, so the state after `DEL old` and before `SET new` is a real
store state that concurrent commands (or a crash) can observe. -/
def refreshPipelineStates (s : RStore) (userID : Int) (oldToken newToken : String)
    (expiresAt : Nat) : List RStore :=
  [s, redisDel s (rkey oldToken),
    redisSet (redisDel s (rkey oldToken)) (rkey newToken) userID expiresAt]

/-- The HS256-signed refresh-token string minted by `generateRefreshToken`
(`biz/auth.go:99-129`): a deterministic, collision-free function of the
secret and the claims, and the claims are exactly `sub = userID`,
`exp = now + 7*24*3600`, `iat = nbf = now` (seconds — `jwt.NewNumericDate`
truncates to `jwt.TimePrecision = time.Second`) plus the constant-shaped
`ID` field. Two calls with the same secret, user and second therefore
produce the *same* string. -/
def refreshTokenString (secret : String) (userID : Int) (now : Nat) : String :=
  "hs256jwt." ++ secret ++ ".sub=" ++ toString userID ++ ".exp=" ++
    toString (now + 604800) ++ ".iat=" ++ toString now ++ ".id=refresh"

/-- Likewise the access-token string minted by `generateAccessToken`
(`biz/auth.go:67-96`), with a 1-hour expiry. -/
def accessTokenString (secret : String) (userID : Int) (now : Nat) : String :=
  "hs256jwt." ++ secret ++ ".sub=" ++ toString userID ++ ".exp=" ++
    toString (now + 3600) ++ ".iat=" ++ toString now

/-- Embedding of `biz.TokenPair`. -/
structure TokenPair where
  accessToken : String
  accessExpiresIn : Int
  refreshToken : String
  refreshExpiresIn : Int
  deriving DecidableEq, Repr

/-- Embedding of `AuthUsecase.RefreshToken` (`biz/auth.go:132-196`): emptiness check,
store lookup of the old token (absence → `ErrorUserRefreshTokenInvalid`),
minting of the new pair (a missing secret → `ErrorUserInternalError`), and
the delete-old/insert-new swap via `RefreshTokenAtomically`. -/
def RefreshToken (env : Env) (s : RStore) (refreshToken : String) (now : Nat) :
    Except Err (TokenPair × RStore) :=
  if refreshToken = "" then .error (.userRefreshTokenInvalid "刷新令牌不能为空")
  else
    match GetUserIDByRefreshToken s refreshToken with
    | .error _ => .error (.userRefreshTokenInvalid "刷新令牌无效")
    | .ok userID =>
      if env.jwtAccessSecret = "" then .error (.userInternalError "访问令牌生成失败")
      else if env.jwtRefreshSecret = "" then .error (.userInternalError "刷新令牌生成失败")
      else
        let newToken := refreshTokenString env.jwtRefreshSecret userID now
        let s2 := RefreshTokenAtomically s userID refreshToken newToken (now + 604800)
        .ok (⟨accessTokenString env.jwtAccessSecret userID now, 3600, newToken, 604800⟩, s2)

/-- Embedding of `AuthUsecase.Logout` (`biz/auth.go:199-225`): the empty token is rejected
as `ErrorUserRefreshTokenInvalid` before any store access; otherwise the
token record is deleted (Redis `DEL`, which cannot fail on an absent key)
and the call succeeds. -/
def Logout (s : RStore) (refreshToken : String) : Except Err RStore :=
  if refreshToken = "" then .error (.userRefreshTokenInvalid "刷新令牌不能为空")
  else .ok (DeleteRefreshToken s refreshToken)

/-! ## Interleaving model of N concurrent `Register` calls (claim C8)

Per §5 of the spec, the engine holds no in-process state: all interaction
between concurrent `Register` calls goes through the two stores, and each
store call is atomic. A concurrent execution of N `Register` calls that use
the *same* email and all pass the pure argument validation with a matching,
unexpired stored code is therefore an arbitrary interleaving of their store
events. Each process performs, in source order (`part_004:202-261`):

1. `GetVerificationCode` — if the code entry is gone the call finishes with
   `ErrInvalidVerificationCode` (the stored code matches and is unexpired by
   premise, so when the entry is present the process proceeds);
2. `DeleteVerificationCode` — removes the (shared) entry, always succeeds;
3. `Create` — succeeds iff no user row with the email exists yet, inserting
   one; otherwise the store reports a duplicate-entry error, which
   `isUniqueConstraintError` recognizes, so the call finishes with
   `ErrEmailAlreadyExists`.
-/

/-- Outcome of one completed `Register` call in the race. -/
inductive ROutcome where
  | success
  | emailExists
  | invalidCode
  deriving DecidableEq, Repr

/-- Control point of one `Register` call: before its code fetch, before its
code delete, before its create, or completed. -/
inductive RProc where
  | atGet
  | atDelete
  | atCreate
  | done (o : ROutcome)
  deriving DecidableEq, Repr

/-- Shared state of the race: whether the verification-code entry for the
email is still present, how many user rows with the email exist, and each
process's control point. -/
structure RaceState where
  codePresent : Bool
  usersCreated : Nat
  procs : List RProc
  deriving DecidableEq, Repr

/-- One atomic store event of process `i` (no-op for a finished process or
an out-of-range index). -/
def raceStep (st : RaceState) (i : Nat) : RaceState :=
  match st.procs[i]? with
  | none => st
  | some .atGet =>
    if st.codePresent then { st with procs := st.procs.set i .atDelete }
    else { st with procs := st.procs.set i (.done .invalidCode) }
  | some .atDelete =>
    { st with codePresent := false, procs := st.procs.set i .atCreate }
  | some .atCreate =>
    if st.usersCreated = 0 then
      { st with usersCreated := 1, procs := st.procs.set i (.done .success) }
    else { st with procs := st.procs.set i (.done .emailExists) }
  | some (.done _) => st

/-- Run a schedule (the global interleaving order of store events). -/
def raceRun (st : RaceState) : List Nat → RaceState
  | [] => st
  | i :: rest => raceRun (raceStep st i) rest

/-- Initial state of an N-way race: the code entry is present (stored,
matching, unexpired), no user row exists, every process is about to fetch. -/
def raceInit (n : Nat) : RaceState :=
  ⟨true, 0, List.replicate n .atGet⟩

/-- Number of processes that completed successfully. -/
def raceSuccesses (st : RaceState) : Nat :=
  st.procs.countP (fun p => p = .done .success)

/-- Number of processes that completed with `ErrEmailAlreadyExists`. -/
def raceEmailExists (st : RaceState) : Nat :=
  st.procs.countP (fun p => p = .done .emailExists)

/-- A process has completed. -/
def RProc.isDone : RProc → Bool
  | .done _ => true
  | _ => false

/-- Invariant of the registration race, preserved by every store event.
`usersCreated` coincides with the number of processes that completed
successfully; at most one row is ever created; a process can only have seen
a duplicate-entry error after the row was created; once the code entry is
gone some process is at (or past) its create; while the code entry is
present no process can have failed its code fetch. -/
def RaceInv (st : RaceState) : Prop :=
  st.usersCreated = raceSuccesses st ∧
  st.usersCreated ≤ 1 ∧
  (∀ (j : Nat) (p : RProc), st.procs[j]? = some p → p = .done .emailExists →
    st.usersCreated = 1) ∧
  (st.codePresent = false →
    ∃ (j : Nat) (p : RProc), st.procs[j]? = some p ∧
      (p = .atCreate ∨ p = .done .success ∨ p = .done .emailExists)) ∧
  (st.codePresent = true → ∀ (j : Nat) (p : RProc), st.procs[j]? = some p →
    p ≠ .done .invalidCode)

/-! ## Concrete fixtures used by witnesses and counterexamples -/

/-- A store holding a valid verification code `"123456"` for `a@x.com`
expiring at second 100, and no user rows. -/
def dbFix : DB := ⟨[], [("a@x.com", "123456", 100)], [], 1⟩

/-- Like `dbFix`, but a user with email `a@x.com` already exists. -/
def dbUser : DB :=
  ⟨[⟨7, "a@x.com", "bcrypt$pw", "nick", 0⟩], [("a@x.com", "123456", 100)], [], 8⟩

/-- The environment with both JWT secrets configured. -/
def envFix : Env := ⟨"s", "r"⟩

/-- A refresh token minted for user 1 at second 0 with the refresh secret of
`envFix`. -/
def oldTok : String := refreshTokenString "r" 1 0

/-- A refresh-token store holding exactly `oldTok` for user 1. -/
def rs0 : RStore := [(rkey oldTok, 1, 604800)]

/-! ## Helper lemmas -/

/-- Deleting an absent key leaves the store unchanged. -/
theorem redisDel_absent (s : RStore) (k : String) (h : redisGet s k = none) :
    redisDel s k = s := by
  unfold redisGet at h
  rw [Option.map_eq_none'] at h
  rw [List.find?_eq_none] at h
  unfold redisDel
  rw [List.filter_eq_self]
  intro a ha
  have := h a ha
  simpa using this

/-- Redis `DEL` is idempotent on the store. -/
theorem redisDel_idem (s : RStore) (k : String) : redisDel (redisDel s k) k = redisDel s k := by
  unfold redisDel
  induction s with
  | nil => rfl
  | cons e t ih =>
    by_cases he : e.1 = k
    · simp [List.filter_cons, he, ih]
    · simp [List.filter_cons, he, ih]

/-! ## Claim theorems -/

/-- C1 (code bug): a syntactically valid access token, correctly signed with
the configured access secret (`"s"` in `envFix`) but whose `exp` claim
(second 100) lies in the past at validation time (second 3700), is rejected
by `ValidateToken` as `ErrorUserInvalidToken "访问令牌格式无效"` — the generic
invalid-token condition — and *not* as `ErrorUserTokenExpired`: the
`golang-jwt/v5` `ParseWithClaims` call already fails on an expired `exp`, so
the dedicated `TokenExpired` branch at `biz/auth.go:269-272` is unreachable,
contradicting the claim, the repository's own dead branch and the API
documentation's distinct `USER_TOKEN_EXPIRED` condition. -/
theorem validateToken_expired_gives_invalid_token :
    ValidateToken envFix (.signed ⟨"42", some 100, some 0⟩ "s") 3700 =
      .error (.userInvalidToken "访问令牌格式无效") ∧
    ValidateToken envFix (.signed ⟨"42", some 100, some 0⟩ "s") 3700 ≠
      .error (.userTokenExpired "访问令牌已过期") := by
  constructor
  · decide
  · decide

/-- C6 counterexample: a correctly signed, unexpired access token whose
subject is `"-5"` — which does not denote a positive integer — is *accepted*
by `ValidateToken`, which returns the non-positive user id `-5`
(`strconv.ParseInt` parses signed integers and no positivity check follows),
so the claim "whenever ValidateAccessToken succeeds, the user id it returns
is a positive integer" is false. -/
theorem validateToken_accepts_negative_subject :
    ValidateToken envFix (.signed ⟨"-5", some 100, some 0⟩ "s") 50 = .ok (-5) ∧
    ¬ (0 : Int) < -5 := by
  constructor
  · decide
  · decide

/-- C6 (amended): for every correctly signed token that passes the v5 parse
validation (unexpired `exp`, satisfied `nbf`), if the subject does not parse
as a signed 64-bit integer then `ValidateToken` returns
`ErrorUserInvalidToken`, and whenever `ValidateToken` succeeds the returned
id is exactly the integer the subject denotes — which may be zero or
negative. -/
theorem validateToken_subject_parse (env : Env) (claims : RegisteredClaims) (now : Nat)
    (hsec : env.jwtAccessSecret ≠ "")
    (hexp : claims.expiresAt.any (fun exp => decide (exp ≤ now)) = false)
    (hnbf : claims.notBefore.any (fun nbf => decide (now < nbf)) = false) :
    (parseInt64 claims.subject = none →
      ValidateToken env (.signed claims env.jwtAccessSecret) now =
        .error (.userInvalidToken "访问令牌用户信息无效")) ∧
    (∀ uid, ValidateToken env (.signed claims env.jwtAccessSecret) now = .ok uid →
      parseInt64 claims.subject = some uid) := by
  have hne : (TokenString.signed claims env.jwtAccessSecret) ≠ emptyToken := by
    simp [emptyToken]
  have hparse : jwtParseWithClaims (.signed claims env.jwtAccessSecret)
      env.jwtAccessSecret now = .ok claims := by
    unfold jwtParseWithClaims
    simp [hexp, hnbf]
  have hdead : claims.expiresAt.any (fun exp => decide (exp < now)) = false := by
    cases h : claims.expiresAt with
    | none => rfl
    | some e =>
      rw [h] at hexp
      simp only [Option.any_some, decide_eq_false_iff_not] at hexp ⊢
      omega
  constructor
  · intro hp
    simp [ValidateToken, hne, hsec, hparse, hdead, hp]
  · intro uid h
    simp [ValidateToken, hne, hsec, hparse, hdead] at h
    cases hp : parseInt64 claims.subject with
    | none => rw [hp] at h; simp at h
    | some v => rw [hp] at h; simp at h; rw [h]

/-- C6 witness: `validateToken_subject_parse` applied to a signed, unexpired
token with the non-numeric subject `"abc"`. -/
theorem validateToken_subject_parse_witness :
    ValidateToken envFix (.signed ⟨"abc", some 100, some 0⟩ "s") 50 =
      .error (.userInvalidToken "访问令牌用户信息无效") :=
  (validateToken_subject_parse envFix ⟨"abc", some 100, some 0⟩ 50 (by decide) (by decide)
    (by decide)).1 (by decide)

/-- C4 (code bug): during a successful `RefreshToken(old)` the data layer
sends `DEL old; SET new` as a plain (non-transactional) go-redis pipeline,
so the store passes through the intermediate state `redisDel rs0 (rkey
oldTok)` — an element of `refreshPipelineStates` — in which the old token is
already gone while the new one is not yet written: neither resolves,
contradicting "the delete-old and insert-new are applied together, with no
reachable state in which only one of them happened" (the code's own comment
claims a Redis transaction, but `Pipeline()` issues no `MULTI`/`EXEC`).
Additionally, refreshing during the same second in which the old token was
minted (here second 0) regenerates the byte-identical JWT string, so after
that successful refresh the old token still resolves and a second
`RefreshToken(old)` succeeds, contradicting "a second RefreshToken(old)
fails with InvalidToken". -/
theorem refreshToken_swap_not_atomic :
    RefreshToken envFix rs0 oldTok 500 =
      .ok (⟨accessTokenString "s" 1 500, 3600, refreshTokenString "r" 1 500, 604800⟩,
        RefreshTokenAtomically rs0 1 oldTok (refreshTokenString "r" 1 500) 605300) ∧
    redisDel rs0 (rkey oldTok) ∈
      refreshPipelineStates rs0 1 oldTok (refreshTokenString "r" 1 500) 605300 ∧
    GetUserIDByRefreshToken (redisDel rs0 (rkey oldTok)) oldTok =
      .error "refresh token not found" ∧
    GetUserIDByRefreshToken (redisDel rs0 (rkey oldTok)) (refreshTokenString "r" 1 500) =
      .error "refresh token not found" ∧
    RefreshToken envFix rs0 oldTok 0 =
      .ok (⟨accessTokenString "s" 1 0, 3600, oldTok, 604800⟩,
        RefreshTokenAtomically rs0 1 oldTok oldTok 604800) ∧
    GetUserIDByRefreshToken (RefreshTokenAtomically rs0 1 oldTok oldTok 604800) oldTok =
      .ok 1 ∧
    RefreshToken envFix (RefreshTokenAtomically rs0 1 oldTok oldTok 604800) oldTok 0 =
      RefreshToken envFix rs0 oldTok 0 := by
  refine ⟨by decide, by decide, by decide, by decide, by decide, by decide, by decide⟩

/-- C10: `Logout` rejects the empty refresh token with
`ErrorUserRefreshTokenInvalid` uniformly in the store (the store is never
consulted), while for every non-empty token it succeeds, returning the store
with the token's record deleted — so the empty string is exactly the input
on which `Logout` is not idempotent-success. -/
theorem logout_empty_token_rejected (s : RStore) (t : String) :
    (t = "" → Logout s t = .error (.userRefreshTokenInvalid "刷新令牌不能为空")) ∧
    (t ≠ "" → Logout s t = .ok (DeleteRefreshToken s t)) := by
  constructor
  · intro h
    simp [Logout, h]
  · intro h
    simp [Logout, h]

/-- C10 witness: `logout_empty_token_rejected` applied to a store holding
one token, at the empty input and at an absent non-empty input. -/
theorem logout_empty_token_rejected_witness :
    Logout rs0 "" = .error (.userRefreshTokenInvalid "刷新令牌不能为空") ∧
    Logout rs0 "t" = .ok (DeleteRefreshToken rs0 "t") :=
  ⟨(logout_empty_token_rejected rs0 "").1 rfl,
    (logout_empty_token_rejected rs0 "t").2 (by decide)⟩

/-- C7: `Logout` is idempotent for every non-empty refresh token: deleting
an already-absent record succeeds and leaves the store unchanged, and after
a successful `Logout t` a second `Logout t` again returns success on the
resulting store. -/
theorem logout_idempotent (s : RStore) (t : String) (h : t ≠ "") :
    (redisGet s (rkey t) = none → Logout s t = .ok s) ∧
    (∀ s2, Logout s t = .ok s2 → Logout s2 t = .ok s2) := by
  constructor
  · intro habs
    simp [Logout, h, DeleteRefreshToken, redisDel_absent _ _ habs]
  · intro s2 h2
    simp [Logout, h, DeleteRefreshToken] at h2
    simp [Logout, h, DeleteRefreshToken, ← h2, redisDel_idem]

/-- C7 witness: `logout_idempotent` applied to the token `"t"`, absent from
`rs0`, and to the double-logout sequence. -/
theorem logout_idempotent_witness :
    Logout (redisDel rs0 (rkey oldTok)) oldTok = .ok (redisDel rs0 (rkey oldTok)) ∧
    Logout rs0 "t" = .ok rs0 :=
  ⟨(logout_idempotent (redisDel rs0 (rkey oldTok)) oldTok (by decide)).1 (by decide),
    (logout_idempotent rs0 "t" (by decide)).1 (by decide)⟩

/-- C9: when a user with the given email already exists, `SendRegisterCode`
returns `ErrEmailAlreadyExists` with the store state unchanged — the
rate-limit marker is not claimed and no verification code is stored — and
its only store operation is the `GetByEmail` existence check, which runs
before the rate-limit claim. -/
theorem sendRegisterCode_existing_email_no_writes (db : DB) (email : String) (now : Nat)
    (gencode : String) (mailOK : Bool) (he : email ≠ "")
    (hex : userExists db email = true) :
    SendRegisterCode db email now gencode mailOK =
      (.error .emailAlreadyExists, db, [.getUserByEmail email]) := by
  simp [SendRegisterCode, he, hex]

/-- C9 witness: `sendRegisterCode_existing_email_no_writes` on `dbUser`,
whose user table already holds `a@x.com`. -/
theorem sendRegisterCode_existing_email_no_writes_witness :
    SendRegisterCode dbUser "a@x.com" 5 "999999" true =
      (.error .emailAlreadyExists, dbUser, [.getUserByEmail "a@x.com"]) :=
  sendRegisterCode_existing_email_no_writes dbUser "a@x.com" 5 "999999" true (by decide)
    (by decide)

/-- C5: with non-empty email/password/code, `Register` decides the
verification code in source order: an absent stored code yields
`ErrInvalidVerificationCode`; a stored code that differs from the supplied
one yields `ErrInvalidVerificationCode`; a matching code whose expiry lies
strictly in the past (`time.Now().After(ExpiresAt)`, so already at
`now = expiry + 1` second) yields `ErrVerificationCodeExpired`; and a
matching, unexpired code (`now ≤ expiry`) lets registration proceed to the
post-code steps `registerPostCode`. In the first three cases the store is
left unchanged and only the code fetch was issued. -/
theorem register_code_check_order (db : DB) (now : Nat)
    (email password code nickname : String) (fault : Option String)
    (he : email ≠ "") (hp : password ≠ "") (hc : code ≠ "") :
    (lookupCode db email = none →
      Register db now email password code nickname fault =
        (.error .invalidVerificationCode, db, [.getVerificationCode email])) ∧
    (∀ (c : String) (exp : Nat), lookupCode db email = some (c, exp) → c ≠ code →
      Register db now email password code nickname fault =
        (.error .invalidVerificationCode, db, [.getVerificationCode email])) ∧
    (∀ (exp : Nat), lookupCode db email = some (code, exp) → exp < now →
      Register db now email password code nickname fault =
        (.error .verificationCodeExpired, db, [.getVerificationCode email])) ∧
    (∀ (exp : Nat), lookupCode db email = some (code, exp) → now ≤ exp →
      Register db now email password code nickname fault =
        registerPostCode db now email password code nickname fault) := by
  have h0 : ¬ (email = "" ∨ password = "" ∨ code = "") := by simp [he, hp, hc]
  refine ⟨?_, ?_, ?_, ?_⟩
  · intro hl
    simp [Register, h0, hl]
  · intro c exp hl hcc
    simp [Register, h0, hl, hcc]
  · intro exp hl hlt
    simp [Register, h0, hl, hlt]
  · intro exp hl hle
    have hnlt : ¬ exp < now := by omega
    simp [Register, h0, hl, hnlt]

/-- C5 witness: `register_code_check_order` on `dbFix`, whose code
`"123456"` for `a@x.com` expires at second 100, applied at second 101
(expired by one second) and at second 100 (still valid, proceeding to the
post-code steps). -/
theorem register_code_check_order_witness :
    Register dbFix 101 "a@x.com" "pw1234" "123456" "n" none =
      (.error .verificationCodeExpired, dbFix, [.getVerificationCode "a@x.com"]) ∧
    Register dbFix 100 "a@x.com" "pw1234" "123456" "n" none =
      registerPostCode dbFix 100 "a@x.com" "pw1234" "123456" "n" none :=
  ⟨(register_code_check_order dbFix 101 "a@x.com" "pw1234" "123456" "n" none
      (by decide) (by decide) (by decide)).2.2.1 100 (by decide) (by decide),
    (register_code_check_order dbFix 100 "a@x.com" "pw1234" "123456" "n" none
      (by decide) (by decide) (by decide)).2.2.2 100 (by decide) (by decide)⟩

/-- C3 counterexample: the claim requires every call with an empty argument
to be rejected by validation before any store access, and a short password
likewise. But `Register` with the empty nickname `""` (and otherwise valid
inputs) is *not* rejected — it creates the user; and a 5-byte password is
rejected only *after* the verification-code store has been read (the
operation trace already contains the code fetch). -/
theorem register_empty_nickname_not_rejected :
    (Register dbFix 5 "a@x.com" "pw1234" "123456" "" none).1 =
      .ok ⟨1, "a@x.com", "", "", 0⟩ ∧
    (Register dbFix 5 "a@x.com" "12345" "123456" "n" none).2.2 =
      [.getVerificationCode "a@x.com"] ∧
    (Register dbFix 5 "a@x.com" "12345" "123456" "n" none).1 =
      .error (.validationError "password must be at least 6 characters long") := by
  refine ⟨by decide, by decide, by decide⟩

/-- The create step never reads fields other than `users`/`nextID`, and the
code deletion never touches the user table. -/
theorem userExists_deleteCode (db : DB) (e1 e2 : String) :
    userExists (deleteCode db e1) e2 = userExists db e2 := rfl

/-- C3 (amended): validation in `Register` is exactly this: empty
email/password/code is rejected immediately with no store access at all
(empty trace, unchanged store); a password of fewer than 6 bytes is
rejected, but only after the verification-code fetch and checks (the trace
contains the code fetch), though before the code deletion and before any
user-store access; and an empty nickname is never rejected — with otherwise
valid inputs the user is created with the empty nickname. -/
theorem register_validation_gaps (db : DB) (now : Nat)
    (email password code nickname : String) (fault : Option String) :
    ((email = "" ∨ password = "" ∨ code = "") →
      Register db now email password code nickname fault =
        (.error (.validationError "email, password and code are required"), db, [])) ∧
    (email ≠ "" → password ≠ "" → code ≠ "" → password.utf8ByteSize < 6 →
      ∀ (exp : Nat), lookupCode db email = some (code, exp) → now ≤ exp →
      Register db now email password code nickname fault =
        (.error (.validationError "password must be at least 6 characters long"), db,
          [.getVerificationCode email])) ∧
    (email ≠ "" → password ≠ "" → code ≠ "" → ¬ password.utf8ByteSize < 6 →
      ∀ (exp : Nat), lookupCode db email = some (code, exp) → now ≤ exp →
      fault = none → userExists db email = false →
      ∃ (u : UserRec), (Register db now email password code nickname fault).1 = .ok u) := by
  refine ⟨?_, ?_, ?_⟩
  · intro h0
    simp [Register, h0]
  · intro he hp hc hlen exp hl hle
    have h0 : ¬ (email = "" ∨ password = "" ∨ code = "") := by simp [he, hp, hc]
    have hnlt : ¬ exp < now := by omega
    simp [Register, h0, hl, hnlt, registerPostCode, hlen]
  · intro he hp hc hlen exp hl hle hf hu
    have h0 : ¬ (email = "" ∨ password = "" ∨ code = "") := by simp [he, hp, hc]
    have hnlt : ¬ exp < now := by omega
    subst hf
    refine ⟨⟨db.nextID, email, "", nickname, 0⟩, ?_⟩
    have hu2 : db.users.any (fun u => u.email = email) = false := hu
    simp [Register, h0, hl, hnlt, registerPostCode, hlen, createUser, deleteCode,
      userExists, hu2]

/-- C3 witness: `register_validation_gaps` applied with an empty email, with
a 5-byte password against the valid stored code of `dbFix`, and with the
empty nickname. -/
theorem register_validation_gaps_witness :
    Register dbFix 5 "" "pw1234" "123456" "n" none =
      (.error (.validationError "email, password and code are required"), dbFix, []) ∧
    Register dbFix 5 "a@x.com" "12345" "123456" "n" none =
      (.error (.validationError "password must be at least 6 characters long"), dbFix,
        [.getVerificationCode "a@x.com"]) ∧
    ∃ (u : UserRec), (Register dbFix 5 "a@x.com" "pw1234" "123456" "" none).1 = .ok u :=
  ⟨(register_validation_gaps dbFix 5 "" "pw1234" "123456" "n" none).1 (by decide),
    (register_validation_gaps dbFix 5 "a@x.com" "12345" "123456" "n" none).2.1
      (by decide) (by decide) (by decide) (by decide) 100 (by decide) (by decide),
    (register_validation_gaps dbFix 5 "a@x.com" "pw1234" "123456" "" none).2.2
      (by decide) (by decide) (by decide) (by decide) 100 (by decide) (by decide) rfl
      (by decide)⟩

/-- C2 counterexample: `"NOT NULL constraint failed: user.nickname"` — the
error a SQLite-backed store reports for a NOT-NULL violation, *not* a
uniqueness violation (it matches neither `Duplicate entry` nor
`UNIQUE constraint failed`) — is nevertheless classified by
`isUniqueConstraintError`'s substring test (it contains
`"constraint failed"`), so `Register` translates this non-uniqueness store
failure to `ErrEmailAlreadyExists`, falsifying "any other store failure from
the create ... never as EmailAlreadyExists". -/
theorem register_misclassifies_nonunique_failure :
    isGormUniqueViolationMsg "NOT NULL constraint failed: user.nickname" = false ∧
    (Register dbFix 5 "a@x.com" "pw1234" "123456" "n"
        (some "NOT NULL constraint failed: user.nickname")).1 =
      .error .emailAlreadyExists := by
  refine ⟨by decide, by decide⟩

/-- C2 (amended): `Register` performs no email-existence check — no
`GetByEmail` ever appears in its store-operation trace, for any input; when
the create fails, the failure is classified solely by
`isUniqueConstraintError`'s substring test on the message: a matching
message (which includes every genuine uniqueness violation, but also some
unrelated failures such as other `... constraint failed` messages) becomes
`ErrEmailAlreadyExists`, and a non-matching failure is passed through
unclassified, never as `ErrEmailAlreadyExists`; in particular a create
submitted while a user with the email exists fails with the store's
duplicate-entry error and is returned as `ErrEmailAlreadyExists`. -/
theorem register_create_error_translation (db : DB) (now : Nat)
    (email password code nickname : String) (fault : Option String)
    (he : email ≠ "") (hp : password ≠ "") (hc : code ≠ "")
    (exp : Nat) (hl : lookupCode db email = some (code, exp)) (hle : now ≤ exp)
    (hlen : ¬ password.utf8ByteSize < 6) :
    (∀ (db2 : DB) (now2 : Nat) (e2 p2 c2 n2 : String) (f2 : Option String) (e : String),
      StoreOp.getUserByEmail e ∉ (Register db2 now2 e2 p2 c2 n2 f2).2.2) ∧
    (∀ msg : String, fault = some msg → isUniqueConstraintError (some msg) = true →
      (Register db now email password code nickname fault).1 =
        .error .emailAlreadyExists) ∧
    (∀ msg : String, fault = some msg → isUniqueConstraintError (some msg) = false →
      (Register db now email password code nickname fault).1 =
        .error (.storeError msg)) ∧
    (fault = none → userExists db email = true →
      (Register db now email password code nickname fault).1 =
        .error .emailAlreadyExists) := by
  have h0 : ¬ (email = "" ∨ password = "" ∨ code = "") := by simp [he, hp, hc]
  have hnlt : ¬ exp < now := by omega
  refine ⟨?_, ?_, ?_, ?_⟩
  · intro db2 now2 e2 p2 c2 n2 f2 e
    unfold Register registerPostCode
    split
    · simp
    · split
      · simp
      · split
        · simp
        · split
          · simp
          · split
            · simp
            · dsimp only
              split
              · split
                · simp
                · simp
              · simp
  · intro msg hf hcls
    subst hf
    simp [Register, h0, hl, hnlt, registerPostCode, hlen, createUser, hcls]
  · intro msg hf hcls
    subst hf
    simp [Register, h0, hl, hnlt, registerPostCode, hlen, createUser, hcls]
  · intro hf hu
    subst hf
    have hdup : isUniqueConstraintError (some dupEntryMsg) = true := by decide
    simp [Register, h0, hl, hnlt, registerPostCode, hlen, createUser,
      userExists_deleteCode, hu, hdup]

/-- C2 witness: `register_create_error_translation` on `dbFix` with an
injected MySQL duplicate-entry failure, with an injected unrelated failure,
and on `dbUser` (email already registered) with the store behaving per
contract. -/
theorem register_create_error_translation_witness :
    (Register dbFix 5 "a@x.com" "pw1234" "123456" "n" (some dupEntryMsg)).1 =
      .error .emailAlreadyExists ∧
    (Register dbFix 5 "a@x.com" "pw1234" "123456" "n" (some "connection reset")).1 =
      .error (.storeError "connection reset") ∧
    (Register dbUser 5 "a@x.com" "pw1234" "123456" "n" none).1 =
      .error .emailAlreadyExists :=
  ⟨(register_create_error_translation dbFix 5 "a@x.com" "pw1234" "123456" "n"
      (some dupEntryMsg) (by decide) (by decide) (by decide) 100 (by decide) (by decide)
      (by decide)).2.1 dupEntryMsg rfl (by decide),
    (register_create_error_translation dbFix 5 "a@x.com" "pw1234" "123456" "n"
      (some "connection reset") (by decide) (by decide) (by decide) 100 (by decide)
      (by decide) (by decide)).2.2.1 "connection reset" rfl (by decide),
    (register_create_error_translation dbUser 5 "a@x.com" "pw1234" "123456" "n" none
      (by decide) (by decide) (by decide) 100 (by decide) (by decide)
      (by decide)).2.2.2 rfl (by decide)⟩

/-- Replacing the element at a present index changes `countP` by exactly the
difference between the predicate's verdict on the new and the old element. -/
theorem countP_set_balance (l : List RProc) (i : Nat) (p : RProc) (q : RProc → Bool)
    (a : RProc) (h : l[i]? = some p) :
    (l.set i a).countP q + (if q p then 1 else 0) =
      l.countP q + (if q a then 1 else 0) := by
  induction l generalizing i with
  | nil => simp at h
  | cons x t ih =>
    cases i with
    | zero =>
      rw [List.getElem?_cons_zero] at h
      simp only [Option.some.injEq] at h
      subst h
      simp only [List.set_cons_zero, List.countP_cons]
      omega
    | succ n =>
      rw [List.getElem?_cons_succ] at h
      have hih := ih n h
      simp only [List.set_cons_succ, List.countP_cons]
      omega

/-- A store event never changes the number of processes. -/
theorem raceStep_length (st : RaceState) (i : Nat) :
    (raceStep st i).procs.length = st.procs.length := by
  unfold raceStep
  split
  · rfl
  · split <;> simp
  · simp
  · split <;> simp
  · rfl

/-- A schedule never changes the number of processes. -/
theorem raceRun_length (sched : List Nat) (st : RaceState) :
    (raceRun st sched).procs.length = st.procs.length := by
  induction sched generalizing st with
  | nil => rfl
  | cons i rest ih => rw [raceRun, ih, raceStep_length]

/-- The invariant `RaceInv` holds initially. -/
theorem raceInv_init (n : Nat) : RaceInv (raceInit n) := by
  refine ⟨?_, by simp [raceInit], ?_, ?_, ?_⟩
  · simp only [raceInit, raceSuccesses]
    symm
    rw [List.countP_eq_zero]
    intro p hp
    rw [List.eq_of_mem_replicate hp]
    simp
  · intro j p hj hpe
    have := List.eq_of_mem_replicate (List.getElem?_mem hj)
    subst hpe
    simp at this
  · intro hfalse
    simp [raceInit] at hfalse
  · intro _ j p hj
    have := List.eq_of_mem_replicate (List.getElem?_mem hj)
    subst this
    simp

/-- Every store event preserves `RaceInv`. -/
theorem raceInv_step (st : RaceState) (i : Nat) (h : RaceInv st) :
    RaceInv (raceStep st i) := by
  obtain ⟨h1, h2, h3, h4, h5⟩ := h
  unfold raceStep
  split
  · exact ⟨h1, h2, h3, h4, h5⟩
  -- fetch of the verification code
  · rename_i hp
    have hilt : i < st.procs.length := by
      by_contra hno
      rw [List.getElem?_eq_none (Nat.le_of_not_lt hno)] at hp
      simp at hp
    split
    · rename_i hcp
      refine ⟨?_, h2, ?_, ?_, ?_⟩
      · dsimp only
        have hbal := countP_set_balance st.procs i .atGet
          (fun p => p = .done .success) .atDelete hp
        simp only [decide_eq_true_eq] at hbal
        simp only [raceSuccesses] at h1 ⊢
        simp at hbal
        omega
      · intro j p' hj hpe
        dsimp only at hj ⊢
        by_cases hij : i = j
        · subst hij
          rw [List.getElem?_set_self hilt] at hj
          simp only [Option.some.injEq] at hj
          subst hj
          simp at hpe
        · rw [List.getElem?_set_ne hij] at hj
          exact h3 j p' hj hpe
      · intro hfalse
        dsimp only at hfalse
        rw [hcp] at hfalse
        simp at hfalse
      · intro _ j p' hj
        dsimp only at hj
        by_cases hij : i = j
        · subst hij
          rw [List.getElem?_set_self hilt] at hj
          simp only [Option.some.injEq] at hj
          subst hj
          simp
        · rw [List.getElem?_set_ne hij] at hj
          exact h5 hcp j p' hj
    · rename_i hcp
      have hcpf : st.codePresent = false := by
        revert hcp; cases st.codePresent <;> simp
      refine ⟨?_, h2, ?_, ?_, ?_⟩
      · dsimp only
        have hbal := countP_set_balance st.procs i .atGet
          (fun p => p = .done .success) (.done .invalidCode) hp
        simp only [decide_eq_true_eq] at hbal
        simp only [raceSuccesses] at h1 ⊢
        simp at hbal
        omega
      · intro j p' hj hpe
        dsimp only at hj ⊢
        by_cases hij : i = j
        · subst hij
          rw [List.getElem?_set_self hilt] at hj
          simp only [Option.some.injEq] at hj
          subst hj
          simp at hpe
        · rw [List.getElem?_set_ne hij] at hj
          exact h3 j p' hj hpe
      · intro _
        obtain ⟨j, p', hj, hd⟩ := h4 hcpf
        have hij : i ≠ j := by
          intro he
          subst he
          rw [hp] at hj
          simp only [Option.some.injEq] at hj
          subst hj
          rcases hd with hd | hd | hd <;> simp at hd
        refine ⟨j, p', ?_, hd⟩
        dsimp only
        rw [List.getElem?_set_ne hij]
        exact hj
      · intro hcpt
        dsimp only at hcpt
        rw [hcpf] at hcpt
        simp at hcpt
  -- deletion of the verification code
  · rename_i hp
    have hilt : i < st.procs.length := by
      by_contra hno
      rw [List.getElem?_eq_none (Nat.le_of_not_lt hno)] at hp
      simp at hp
    refine ⟨?_, h2, ?_, ?_, ?_⟩
    · dsimp only
      have hbal := countP_set_balance st.procs i .atDelete
        (fun p => p = .done .success) .atCreate hp
      simp only [decide_eq_true_eq] at hbal
      simp only [raceSuccesses] at h1 ⊢
      simp at hbal
      omega
    · intro j p' hj hpe
      dsimp only at hj ⊢
      by_cases hij : i = j
      · subst hij
        rw [List.getElem?_set_self hilt] at hj
        simp only [Option.some.injEq] at hj
        subst hj
        simp at hpe
      · rw [List.getElem?_set_ne hij] at hj
        exact h3 j p' hj hpe
    · intro _
      refine ⟨i, .atCreate, ?_, Or.inl rfl⟩
      dsimp only
      rw [List.getElem?_set_self hilt]
    · intro hcpt
      dsimp only at hcpt
      simp at hcpt
  -- the create attempt
  · rename_i hp
    have hilt : i < st.procs.length := by
      by_contra hno
      rw [List.getElem?_eq_none (Nat.le_of_not_lt hno)] at hp
      simp at hp
    split
    · rename_i hu0
      refine ⟨?_, by simp, ?_, ?_, ?_⟩
      · dsimp only
        have hbal := countP_set_balance st.procs i .atCreate
          (fun p => p = .done .success) (.done .success) hp
        simp only [decide_eq_true_eq] at hbal
        simp only [raceSuccesses] at h1 ⊢
        simp at hbal
        omega
      · intro j p' hj hpe
        rfl
      · intro _
        refine ⟨i, .done .success, ?_, Or.inr (Or.inl rfl)⟩
        dsimp only
        rw [List.getElem?_set_self hilt]
      · intro hcpt j p' hj
        dsimp only at hcpt hj
        by_cases hij : i = j
        · subst hij
          rw [List.getElem?_set_self hilt] at hj
          simp only [Option.some.injEq] at hj
          subst hj
          simp
        · rw [List.getElem?_set_ne hij] at hj
          exact h5 hcpt j p' hj
    · rename_i hu0
      have hu1 : st.usersCreated = 1 := by omega
      refine ⟨?_, h2, ?_, ?_, ?_⟩
      · dsimp only
        have hbal := countP_set_balance st.procs i .atCreate
          (fun p => p = .done .success) (.done .emailExists) hp
        simp only [decide_eq_true_eq] at hbal
        simp only [raceSuccesses] at h1 ⊢
        simp at hbal
        omega
      · intro j p' hj hpe
        exact hu1
      · intro _
        refine ⟨i, .done .emailExists, ?_, Or.inr (Or.inr rfl)⟩
        dsimp only
        rw [List.getElem?_set_self hilt]
      · intro hcpt j p' hj
        dsimp only at hcpt hj
        by_cases hij : i = j
        · subst hij
          rw [List.getElem?_set_self hilt] at hj
          simp only [Option.some.injEq] at hj
          subst hj
          simp
        · rw [List.getElem?_set_ne hij] at hj
          exact h5 hcpt j p' hj
  -- a finished process: no-op
  · exact ⟨h1, h2, h3, h4, h5⟩

/-- The invariant `RaceInv` holds after any schedule. -/
theorem raceInv_run (sched : List Nat) (st : RaceState) (h : RaceInv st) :
    RaceInv (raceRun st sched) := by
  induction sched generalizing st with
  | nil => exact h
  | cons i rest ih => exact ih _ (raceInv_step st i h)

/-- C8 counterexample: with N = 2 concurrent `Register` calls for the same
email and valid code, the schedule in which the first call runs to
completion (fetch, delete, create) before the second call fetches the code
ends with both calls completed, exactly one success — and *zero*
`EmailAlreadyExists` results: the loser's code fetch finds the code already
consumed and it fails with `ErrInvalidVerificationCode`, so the claimed
"N−1 EmailAlreadyExists errors" (here 1) is false. -/
theorem register_race_loser_gets_invalid_code :
    (raceRun (raceInit 2) [0, 0, 0, 1]).procs =
      [.done .success, .done .invalidCode] ∧
    (raceRun (raceInit 2) [0, 0, 0, 1]).procs.all RProc.isDone = true ∧
    raceSuccesses (raceRun (raceInit 2) [0, 0, 0, 1]) = 1 ∧
    raceEmailExists (raceRun (raceInit 2) [0, 0, 0, 1]) = 0 := by
  refine ⟨by decide, by decide, by decide, by decide⟩

/-- C8 (amended): for every N ≥ 2 and every interleaving of the store events
of N concurrent `Register` calls with the same email and a valid stored
code, at most one user row is ever created and at most one call succeeds;
and in every completed execution exactly one call succeeds while each of the
other N−1 calls fails with either `ErrEmailAlreadyExists` or —
when its code fetch ran after the winner consumed the code —
`ErrInvalidVerificationCode`. -/
theorem register_race_serialized (n : Nat) (sched : List Nat) (hn : 2 ≤ n) :
    (raceRun (raceInit n) sched).usersCreated ≤ 1 ∧
    raceSuccesses (raceRun (raceInit n) sched) ≤ 1 ∧
    ((raceRun (raceInit n) sched).procs.all RProc.isDone = true →
      raceSuccesses (raceRun (raceInit n) sched) = 1 ∧
      ∀ p ∈ (raceRun (raceInit n) sched).procs,
        p = .done .success ∨ p = .done .emailExists ∨ p = .done .invalidCode) := by
  obtain ⟨h1, h2, h3, h4, h5⟩ := raceInv_run sched (raceInit n) (raceInv_init n)
  have hsle : raceSuccesses (raceRun (raceInit n) sched) ≤ 1 := by omega
  refine ⟨h2, hsle, ?_⟩
  intro hall
  have hlen : (raceRun (raceInit n) sched).procs.length = n := by
    rw [raceRun_length]
    simp [raceInit]
  have hne : (raceRun (raceInit n) sched).procs ≠ [] := by
    intro he
    rw [he] at hlen
    simp at hlen
    omega
  have houtcomes : ∀ p ∈ (raceRun (raceInit n) sched).procs,
      p = .done .success ∨ p = .done .emailExists ∨ p = .done .invalidCode := by
    intro p hp
    have hd := List.all_eq_true.mp hall p hp
    cases p with
    | done o =>
      cases o
      · exact Or.inl rfl
      · exact Or.inr (Or.inl rfl)
      · exact Or.inr (Or.inr rfl)
    | atGet => simp [RProc.isDone] at hd
    | atDelete => simp [RProc.isDone] at hd
    | atCreate => simp [RProc.isDone] at hd
  refine ⟨?_, houtcomes⟩
  by_cases hcp : (raceRun (raceInit n) sched).codePresent = true
  · obtain ⟨p, hpmem⟩ := List.exists_mem_of_ne_nil _ hne
    obtain ⟨j, hj⟩ := List.getElem?_of_mem hpmem
    rcases houtcomes p hpmem with hs | hemail | hinv
    · subst hs
      have hpos : 0 < raceSuccesses (raceRun (raceInit n) sched) :=
        List.countP_pos_iff.mpr ⟨_, hpmem, by simp⟩
      omega
    · have hu1 := h3 j p hj hemail
      omega
    · subst hinv
      exact absurd rfl (h5 hcp j _ hj)
  · have hcf : (raceRun (raceInit n) sched).codePresent = false := by
      revert hcp
      cases (raceRun (raceInit n) sched).codePresent <;> simp
    obtain ⟨j, p, hj, hdisj⟩ := h4 hcf
    have hpmem : p ∈ (raceRun (raceInit n) sched).procs := List.getElem?_mem hj
    rcases hdisj with hA | hS | hE
    · subst hA
      have hd := List.all_eq_true.mp hall _ hpmem
      simp [RProc.isDone] at hd
    · subst hS
      have hpos : 0 < raceSuccesses (raceRun (raceInit n) sched) :=
        List.countP_pos_iff.mpr ⟨_, hpmem, by simp⟩
      omega
    · have hu1 := h3 j p hj hE
      omega

/-- C8 witness: `register_race_serialized` at N = 2 with the schedule in
which both calls fetch the code before either deletes it: the execution
completes with one success, and the loser's outcome is one of the two
permitted failures (here `ErrEmailAlreadyExists`). -/
theorem register_race_serialized_witness :
    raceSuccesses (raceRun (raceInit 2) [0, 1, 0, 1, 0, 1]) = 1 :=
  ((register_race_serialized 2 [0, 1, 0, 1, 0, 1] (by decide)).2.2 (by decide)).1

end Xyq
